import Mathlib

/-!
Shallow embedding of the js-validation repository: the message catalog and
regex patterns (src/validation/constants.js), the rule library
(src/validation/lib/*.js), the fluent schema builder and finalizer
(src/validation/schema.js), the validation engine (src/validation/validate.js)
and the form hook's matching-property scan (src/hooks/useForm.js).

Modelling conventions:
* JS strings are Lean `String`s; the JS `length` property counts UTF-16 code
  units, computed here by `jsLength`.
* The rule regexes are tiny and are translated to their precise semantics:
  an unanchored `pattern.test` is an existential over characters, while the
  anchored `^.{n,}$` / `^.{0,n}$` length patterns require every character to
  be matchable by `.` (which excludes the four JS line terminators) in
  addition to the length bound.
* A rule predicate in JS returns `true`, a message string, or (for the
  curried matching rule applied once) another closure; `RunResult` captures
  this tri-state result.  JS function values carry a `name` property used by
  `testRules` to key `failedRules`; named inner function expressions
  (`digit`, `lowercase`, `pattern`) have that name, anonymous ones
  (`symbol`, `email`, `minLength`, `maxLength`, `matches`) have `""`.
* Fallible operations (builder argument checks, finalization, form
  validation) return `Except String`; a `.error` value models a thrown
  exception carrying that message.
* JS objects used as ordered string-keyed maps (the builder's `rules`
  object, forms, form schemas, error maps) are association lists; property
  assignment keeps the first-insertion position of an existing key.
-/

namespace JsValidation

/-! ### Constants (src/validation/constants.js) -/

namespace Errors

def INVALID_NUMBER : String := "Length cannot be negative"

def INVALID_VALUE_TYPE : String := "Invalid value type"

def INVALID_SCHEMA_TYPE : String := "Invalid schema type"

def FORM_SCHEMA_MISMATCH : String := "Schema and form do not match"

def NO_MATCHING_PROPERTY : String := "No PROPERTY property to match"

def INVALID_MIN_OVER_MAX : String := "Minimum length cannot be greater than the maximum"

def INVALID_MIN_MAX : String :=
  "Minimum or maximum length cannot be less than the number of required characters"

def EMPTY_PROPERTY : String := "PROPERTY cannot be empty"

end Errors

namespace Messages

def EMAIL : String := "must be a valid email address"

def DIGIT : String := "must include at least one digit"

def SYMBOL : String := "must include at least one special character"

def PATTERN : String := "does not match the pattern provided"

def REQUIRED : String := "must not be empty"

def MATCHING : String := "does not match PROPERTY"

def LOWERCASE : String := "must include at least one lowercase character"

def UPPERCASE : String := "must include at least one uppercase character"

def MIN_LENGTH : String := "must be at least VALUE character(s) long"

def MAX_LENGTH : String := "cannot be longer than VALUE character(s)"

end Messages

/-! ### JS semantic helpers -/

/-- Number of UTF-16 code units a character occupies in a JS string. -/
def utf16Units (c : Char) : Nat := if c.toNat ≥ 0x10000 then 2 else 1

/-- JS `string.length`: the number of UTF-16 code units. -/
def jsLength (s : String) : Nat := (s.data.map utf16Units).sum

/-- The four JS regex line terminators, which `.` does not match. -/
def isLineTerminator (c : Char) : Bool :=
  c = '\n' || c = '\r' || c = '\u2028' || c = '\u2029'

/-- Whether the regex metacharacter `.` (no `s` flag) matches a character. -/
def regexDot (c : Char) : Bool := !isLineTerminator c

/-- JS `customError || defaultMessage`: the custom message when it is a
truthy (non-empty) string, the default otherwise. -/
def jsOr (customError : Option String) (defaultMessage : String) : String :=
  match customError with
  | some s => if s = "" then defaultMessage else s
  | none => defaultMessage

/-- JS object property read `obj[key]` on a string-keyed object modelled as
an association list (keys unique, insertion order). -/
def objGet {α : Type} : List (String × α) → String → Option α
  | [], _ => none
  | (k, a) :: rest, key => if k = key then some a else objGet rest key

/-- `failedRules[name] = true`: record a key in a JS object used as a set;
an existing key keeps its original position. -/
def objInsert (keys : List String) (k : String) : List String :=
  if k ∈ keys then keys else keys ++ [k]

/-! ### Rule predicates (src/validation/lib/..., constants.js REGEX_PATTERNS)

`/[0-9]/.test v` and the other character-class tests are unanchored
searches: they succeed iff some character of the string is in the class. -/

/-- `/[0-9]/.test value` (src/validation/lib/digit.js). -/
def digitTest (v : String) : Bool :=
  v.data.any fun c => decide ('0' ≤ c) && decide (c ≤ '9')

/-- The character class of `/[!@#$%^&*(),.?":{}|<>]/` (src/validation/lib/symbol.js). -/
def symbolChars : List Char := "!@#$%^&*(),.?\":\x7b\x7d|<>".data

/-- `/[!@#$%^&*(),.?":{}|<>]/.test value` (src/validation/lib/symbol.js). -/
def symbolTest (v : String) : Bool := v.data.any fun c => symbolChars.contains c

/-- `/[A-Z]/.test value` (constants.js REGEX_PATTERNS.uppercase; the
lib/uppercase.js file itself is not in the sources). -/
def uppercaseTest (v : String) : Bool :=
  v.data.any fun c => decide ('A' ≤ c) && decide (c ≤ 'Z')

/-- `/[a-z]/.test value` (src/validation/lib/lowercase.js). -/
def lowercaseTest (v : String) : Bool :=
  v.data.any fun c => decide ('a' ≤ c) && decide (c ≤ 'z')

/-- `new RegExp("^.{" + length + ",}$").test value`: the anchored pattern
matches iff the whole string is at least `length` characters each of which
is matched by `.`; `.` counts single UTF-16 units and excludes line
terminators (src/validation/lib minLength). -/
def minLengthTest (length : Nat) (v : String) : Bool :=
  decide (length ≤ jsLength v) && v.data.all regexDot

/-- `new RegExp("^.{0," + length + "}$").test value` (src/validation/lib
maxLength): at most `length` `.`-matchable units and nothing else. -/
def maxLengthTest (length : Nat) (v : String) : Bool :=
  decide (jsLength v ≤ length) && v.data.all regexDot

/-- `\w` = `[A-Za-z0-9_]`. -/
def wordChar (c : Char) : Bool :=
  (decide ('A' ≤ c) && decide (c ≤ 'Z')) || (decide ('a' ≤ c) && decide (c ≤ 'z')) ||
    (decide ('0' ≤ c) && decide (c ≤ '9')) || decide (c = '_')

/-- Language of `\w+([-]?\w+)*`: a non-empty run of word characters and
hyphens that starts and ends with a word character and has no two adjacent
hyphens. -/
def hyphenWordTest (cs : List Char) : Bool :=
  !cs.isEmpty && cs.all (fun c => wordChar c || decide (c = '-')) &&
    (match cs.head? with | some c => wordChar c | none => false) &&
    (match cs.getLast? with | some c => wordChar c | none => false) &&
    ((cs.zip cs.tail).all fun p => !(decide (p.1 = '-') && decide (p.2 = '-')))

/-- `/^\w+([-]?\w+)*@\w+([-]?\w+)*(\.\w{2,3})+$/.test s`
(src/validation/lib email).  Since `@` and `.` are outside the `\w`/`-`
alphabet, the string decomposes as local `@` host followed by one or more
`.`-separated 2-3 word-character segments. -/
def emailTest (s : String) : Bool :=
  match s.split (· = '@') with
  | [localPart, domainPart] =>
    hyphenWordTest localPart.data &&
      (match domainPart.splitOn "." with
       | host :: tlds =>
         hyphenWordTest host.data && !tlds.isEmpty &&
           tlds.all fun seg =>
             seg.data.all wordChar && decide (2 ≤ seg.length) && decide (seg.length ≤ 3)
       | [] => false)
  | _ => false

/-! ### Escaping for the matching rule (src/validation/lib/matches.js) -/

/-- The character class of `/[-\\^$*+?.()|[\]{}]/g` in `escape`. -/
def escapeChars : List Char :=
  ['-', '\\', '^', '$', '*', '+', '?', '.', '(', ')', '|', '[', ']', '\x7b', '\x7d']

/-- `value.replace(/[-\\^$*+?.()|[\]{}]/g, "\\$&")` on the character list. -/
def escapeL : List Char → List Char
  | [] => []
  | c :: cs => if c ∈ escapeChars then '\\' :: c :: escapeL cs else c :: escapeL cs

/-- The `escape` helper of src/validation/lib/matches.js. -/
def escape (value : String) : String := ⟨escapeL value.data⟩

/-- JS regex characters that have non-literal meaning when unescaped
(outside character classes; a bare `]`, `\x7b` or `\x7d` is literal in JS
annex-B syntax, as is `-`). -/
def regexMetaChars : List Char :=
  ['\\', '^', '$', '.', '|', '?', '*', '+', '(', ')', '[']

/-- Reads a regex pattern body as a sequence of literal characters:
a backslash followed by one of the punctuation characters `escape` produces
denotes that character; a bare non-metacharacter denotes itself.  Returns
`none` when the body is not such a plain literal sequence (a dangling
backslash, an escape sequence with class meaning, or a bare
metacharacter). -/
def unescapeL : List Char → Option (List Char)
  | [] => some []
  | c :: cs =>
    if c = '\\' then
      match cs with
      | [] => none
      | d :: cs' => if d ∈ escapeChars then (unescapeL cs').map (d :: ·) else none
    else
      if c ∈ regexMetaChars then none else (unescapeL cs).map (c :: ·)

/-- `new RegExp("^" + escape matchingValue + "$").test value`: the anchors
make this a whole-string match of the escaped pattern body; `unescapeL`
recovers the literal character sequence that body denotes (the `none`
branch would give the body metacharacter semantics, which `escape`
precludes). -/
def matchingTest (matchingValue : String) (value : String) : Bool :=
  match unescapeL (escapeL matchingValue.data) with
  | some literal => value.data == literal
  | none => false

/-! ### Rules as JS function values -/

/-- A rule value: `simple` is a predicate closure returning `true` or its
message (its JS `name` property recorded alongside); `matchStage1` is the
curried matching rule awaiting the counterpart value; `matchStage2` is the
bound matching rule. -/
inductive Rule where
  | simple (name : String) (test : String → Bool) (errorMessage : String)
  | matchStage1 (errorMessage : String)
  | matchStage2 (matchingValue : String) (errorMessage : String)

/-- The JS `name` property of the rule closure. -/
def Rule.name : Rule → String
  | .simple n _ _ => n
  | .matchStage1 _ => ""
  | .matchStage2 _ _ => ""

/-- The message the rule captured at creation time. -/
def Rule.errMsg : Rule → String
  | .simple _ _ m => m
  | .matchStage1 m => m
  | .matchStage2 _ m => m

/-- Result of calling a rule closure on a string. -/
inductive RunResult where
  | isTrue
  | message (msg : String)
  | closure (r : Rule)

/-- Calling the rule closure: `test(value) || errorMessage` for the plain
rules; the curried matching rule returns its second stage (a function
value). -/
def Rule.run : Rule → String → RunResult
  | .simple _ test msg, v => if test v then .isTrue else .message msg
  | .matchStage1 msg, v => .closure (.matchStage2 v msg)
  | .matchStage2 mv msg, v => if matchingTest mv v then .isTrue else .message msg

/-- Whether a call result is strictly `true` (the engine treats anything
else as a failure). -/
def RunResult.isTrueResult : RunResult → Bool
  | .isTrue => true
  | _ => false

/-! ### Rule factories (src/validation/lib/... as re-exported to schema.js) -/

namespace Validators

/-- lib minLength: the returned inner function expression is anonymous, so
its JS `name` is `""`. -/
def minLength (length : Nat) (errorMessage : String) : Rule :=
  .simple "" (minLengthTest length) errorMessage

/-- lib maxLength: anonymous inner function, `name` is `""`. -/
def maxLength (length : Nat) (errorMessage : String) : Rule :=
  .simple "" (maxLengthTest length) errorMessage

/-- lib/digit.js: the inner function expression is named `digit`. -/
def digit (errorMessage : String) : Rule := .simple "digit" digitTest errorMessage

/-- lib/symbol.js: anonymous inner function, `name` is `""`. -/
def symbol (errorMessage : String) : Rule := .simple "" symbolTest errorMessage

/-- Modelled from the spec: lib/uppercase.js is not among the sources; the
predicate is the fixed `[A-Z]` class of constants.js, and the inner
function is modelled as named `uppercase` by symmetry with
lib/lowercase.js. -/
def uppercase (errorMessage : String) : Rule :=
  .simple "uppercase" uppercaseTest errorMessage

/-- lib/lowercase.js: the inner function expression is named `lowercase`. -/
def lowercase (errorMessage : String) : Rule :=
  .simple "lowercase" lowercaseTest errorMessage

/-- lib email: anonymous inner function, `name` is `""`. -/
def email (errorMessage : String) : Rule := .simple "" emailTest errorMessage

/-- lib/pattern.js: the caller's RegExp (or string compiled to a RegExp) is
modelled by its test function; the inner function expression is named
`pattern`. -/
def pattern (test : String → Bool) (errorMessage : String) : Rule :=
  .simple "pattern" test errorMessage

/-- lib/matches.js: the curried first stage, an anonymous function. -/
def matchesRule (errorMessage : String) : Rule := .matchStage1 errorMessage

end Validators

/-! ### Schema builder state (src/validation/schema.js) -/

/-- Keys of the builder's `rules` object. -/
inductive RuleKey where
  | minimum
  | maximum
  | digit
  | symbol
  | uppercase
  | lowercase
  | pattern
  | email
  | matchingProperty
deriving DecidableEq, Repr

/-- `this.#schema.rules.k = rule`: JS property assignment on the rules
object; an existing key keeps its original position, a new key is appended. -/
def rulesSet : List (RuleKey × Rule) → RuleKey → Rule → List (RuleKey × Rule)
  | [], k, r => [(k, r)]
  | (k', r') :: rest, k, r =>
    if k' = k then (k, r) :: rest else (k', r') :: rulesSet rest k r

/-- `rules.k` property read. -/
def rulesGet : List (RuleKey × Rule) → RuleKey → Option Rule
  | [], _ => none
  | (k', r') :: rest, k => if k' = k then some r' else rulesGet rest k

/-- The private `#schema` object of a `Schema` instance.  `minimum` and
`maximum` are JS numbers (`undefined` when never set); the builder's
argument checks keep them non-negative.  A thrown `TypeError` for
non-numeric or non-string arguments has no counterpart here because the
embedding is typed. -/
structure SchemaState where
  label : Option String := none
  minimum : Option Int := none
  maximum : Option Int := none
  required : Option String := none
  matchingProperty : Option String := none
  rules : List (RuleKey × Rule) := []

/-- `new Schema()`: `#schema = { rules: {} }`. -/
def newSchema : SchemaState := {}

/-- The finalized descriptor produced by `Schema.validateSchema`. -/
structure Descriptor where
  label : Option String := none
  required : Option String := none
  matchingProperty : Option String := none
  rules : List Rule := []

namespace Schema

/-- `min(length, customError)`: `validateLength` throws a RangeError on a
negative length; otherwise record the bound and the minLength rule. -/
def min (s : SchemaState) (length : Int) (customError : Option String) :
    Except String SchemaState :=
  if length < 0 then .error Errors.INVALID_NUMBER
  else
    .ok { s with
      minimum := some length,
      rules := (rulesSet s.rules .minimum
        (Validators.minLength length.toNat
          (jsOr customError (Messages.MIN_LENGTH.replace "VALUE" (toString length))))) }

/-- `max(length, customError)`. -/
def max (s : SchemaState) (length : Int) (customError : Option String) :
    Except String SchemaState :=
  if length < 0 then .error Errors.INVALID_NUMBER
  else
    .ok { s with
      maximum := some length,
      rules := (rulesSet s.rules .maximum
        (Validators.maxLength length.toNat
          (jsOr customError (Messages.MAX_LENGTH.replace "VALUE" (toString length))))) }

/-- `hasDigit(customError)`. -/
def hasDigit (s : SchemaState) (customError : Option String) : SchemaState :=
  { s with rules := rulesSet s.rules .digit (Validators.digit (jsOr customError Messages.DIGIT)) }

/-- `hasSymbol(customError)`. -/
def hasSymbol (s : SchemaState) (customError : Option String) : SchemaState :=
  { s with rules := rulesSet s.rules .symbol (Validators.symbol (jsOr customError Messages.SYMBOL)) }

/-- `hasUppercase(customError)`. -/
def hasUppercase (s : SchemaState) (customError : Option String) : SchemaState :=
  { s with rules := (rulesSet s.rules .uppercase
      (Validators.uppercase (jsOr customError Messages.UPPERCASE))) }

/-- `hasLowercase(customError)`. -/
def hasLowercase (s : SchemaState) (customError : Option String) : SchemaState :=
  { s with rules := (rulesSet s.rules .lowercase
      (Validators.lowercase (jsOr customError Messages.LOWERCASE))) }

/-- `hasPattern(regexPattern, customError)`: the pattern argument is
modelled by its compiled test function. -/
def hasPattern (s : SchemaState) (test : String → Bool) (customError : Option String) :
    SchemaState :=
  { s with rules := (rulesSet s.rules .pattern
      (Validators.pattern test (jsOr customError Messages.PATTERN))) }

/-- `isEmail(customError)`. -/
def isEmail (s : SchemaState) (customError : Option String) : SchemaState :=
  { s with rules := rulesSet s.rules .email (Validators.email (jsOr customError Messages.EMAIL)) }

/-- `isRequired(customError)`: stores the (always non-empty) message. -/
def isRequired (s : SchemaState) (customError : Option String) : SchemaState :=
  { s with required := some (jsOr customError Messages.REQUIRED) }

/-- `matches(name, customError)`: `validateStringInput` throws on an empty
name; otherwise record the matching property and the curried rule.
(`matches` is a reserved token in Lean, hence the name `matchesProperty`.) -/
def matchesProperty (s : SchemaState) (name : String) (customError : Option String) :
    Except String SchemaState :=
  if name = "" then .error (Errors.EMPTY_PROPERTY.replace "PROPERTY" "Matching property")
  else
    .ok { s with
      matchingProperty := some name,
      rules := (rulesSet s.rules .matchingProperty
        (Validators.matchesRule (jsOr customError (Messages.MATCHING.replace "PROPERTY" name)))) }

/-- `label(name)`. -/
def label (s : SchemaState) (name : String) : Except String SchemaState :=
  if name = "" then .error (Errors.EMPTY_PROPERTY.replace "PROPERTY" "Label")
  else .ok { s with label := some name }

end Schema

/-- `getMinimumRequiredCharacters(rules)`: the number of keys of the rules
object, minus one each for the `minimum` and `maximum` keys when present. -/
def getMinimumRequiredCharacters (rules : List (RuleKey × Rule)) : Nat :=
  rules.length - (if (rulesGet rules .minimum).isSome then 1 else 0) -
    (if (rulesGet rules .maximum).isSome then 1 else 0)

/-- JS `a > b` where either side may be `undefined` (any comparison with
`undefined` is false). -/
def jsGT (a b : Option Int) : Bool :=
  match a, b with
  | some x, some y => decide (x > y)
  | _, _ => false

/-- JS `a < n` where `a` may be `undefined`. -/
def jsLtNat (a : Option Int) (n : Nat) : Bool :=
  match a with
  | some x => decide (x < (n : Int))
  | none => false

/-- `Schema.prototype.validateSchema` (src/validation/schema.js:233-280).
Returns the descriptor together with the instance state after the call: in
the generic branch the source deletes the `minimum` and `maximum`
bookkeeping fields (after all checks); the exclusive branches leave the
state untouched.  A thrown error leaves the state untouched, so the caller
keeps the input state on `.error`.  The `matchingProperty` truthiness test
is `isSome`: the builder only ever stores non-empty names.  The exclusive
branches wrap `rules.matchingProperty` / `rules.pattern` / `rules.email` in
a singleton; the builder always stores the rule together with its guard, so
the `none` fallback (an empty list, standing for JS `[undefined]`) is
unreachable from builder-produced states. -/
def Schema.validateSchema (s : SchemaState) : Except String (Descriptor × SchemaState) :=
  if s.matchingProperty.isSome then
    .ok ({ label := s.label, required := s.required, matchingProperty := s.matchingProperty,
           rules := (match rulesGet s.rules .matchingProperty with
                    | some r => [r]
                    | none => []) }, s)
  else if (rulesGet s.rules .pattern).isSome then
    .ok ({ label := s.label, required := s.required, matchingProperty := none,
           rules := (match rulesGet s.rules .pattern with
                    | some r => [r]
                    | none => []) }, s)
  else if (rulesGet s.rules .email).isSome then
    .ok ({ label := s.label, required := s.required, matchingProperty := none,
           rules := (match rulesGet s.rules .email with
                    | some r => [r]
                    | none => []) }, s)
  else if jsGT s.minimum s.maximum then .error Errors.INVALID_MIN_OVER_MAX
  else if jsLtNat s.minimum (getMinimumRequiredCharacters s.rules) ||
      jsLtNat s.maximum (getMinimumRequiredCharacters s.rules) then
    .error Errors.INVALID_MIN_MAX
  else
    .ok ({ label := s.label, required := s.required, matchingProperty := s.matchingProperty,
           rules := s.rules.map Prod.snd },
         { s with minimum := none, maximum := none })

/-! ### Validation engine (src/validation/validate.js) -/

/-- The validation configurations. -/
structure Options where
  abortEarly : Bool := false
  includeRules : Bool := false
  includeLabel : Bool := false

/-- `DEFAULT_OPTIONS`. -/
def DEFAULT_OPTIONS : Options := {}

/-- A JS value appearing in an error list: normally a message string, but
the unbound matching rule's first stage pushes its second-stage closure. -/
inductive JsVal where
  | str (s : String)
  | fn (r : Rule)

/-- The failure payload of a non-`true` call result as the JS value pushed
into the error list (`isTrue` is never passed here). -/
def errorValue : RunResult → JsVal
  | .isTrue => .str ""
  | .message m => .str m
  | .closure r => .fn r

/-- `getErrorMessage(label, errorMessage, includeLabel)`: label-prefix the
message when requested and a label exists.  A function-valued failure would
be stringified by the JS template literal; no claim observes that text, so
the closure value is kept as is. -/
def getErrorMessage (label : Option String) (errorMessage : JsVal) (includeLabel : Bool) :
    JsVal :=
  match label with
  | some l =>
    if includeLabel then
      match errorMessage with
      | .str m => .str (l ++ " " ++ m)
      | .fn r => .fn r
    else errorMessage
  | none => errorMessage

/-- `testRules(value, schema, errors, failedRules, options)`: run each rule
in order; on a non-`true` result append the (optionally label-prefixed)
message and record the rule's `name` in `failedRules`; stop after the first
failure when `abortEarly`. -/
def testRules (value : String) (label : Option String) (opts : Options) :
    List Rule → List JsVal → List String → List JsVal × List String
  | [], errors, failedRules => (errors, failedRules)
  | r :: rest, errors, failedRules =>
    match Rule.run r value with
    | .isTrue => testRules value label opts rest errors failedRules
    | res =>
      let errors' := errors ++ [getErrorMessage label (errorValue res) opts.includeLabel]
      let failed' := objInsert failedRules (Rule.name r)
      if opts.abortEarly then (errors', failed')
      else testRules value label opts rest errors' failed'

/-- The response from validating a single property. -/
structure PropertyResult where
  isValid : Bool
  errors : List JsVal
  failedRules : Option (List String)

/-- `validateProperty(value, schema, options)` (src/validation/validate.js:147-169).
`isEmptyString` (utils.js is not among the sources; modelled from the spec's
"value empty" and `EMPTY_VALUE = ""`) is equality with `""`. -/
def validateProperty (value : String) (schema : Descriptor) (opts : Options) :
    PropertyResult :=
  if schema.required.isNone && value == "" then
    { isValid := true, errors := [],
      failedRules := if opts.includeRules then some [] else none }
  else
    let start : List JsVal × List String :=
      match schema.required with
      | some msg => if value == "" then ([JsVal.str msg], ["required"]) else ([], [])
      | none => ([], [])
    let res := testRules value schema.label opts schema.rules start.1 start.2
    { isValid := res.1.length == 0, errors := res.1,
      failedRules := if opts.includeRules then some res.2 else none }

/-- The string branch of the `validate` entry point
(src/validation/validate.js:51-54): finalize the schema, then validate the
single value. -/
def validateValue (value : String) (schema : SchemaState) (opts : Options) :
    Except String PropertyResult :=
  (Schema.validateSchema schema).map fun p => validateProperty value p.1 opts

/-- The bound matching rule: `schema.rules[0] = schema.rules[0](matchingValue)`.
The stored rule is always the curried first stage; the fallback arm (JS
would store a non-function and crash on the later call) leaves other rules
unchanged and is unreachable from builder-produced schemas. -/
def bindMatching (r : Rule) (matchingValue : String) : Rule :=
  match r with
  | .matchStage1 msg => .matchStage2 matchingValue msg
  | r => r

/-- `getMatchingSchema(schema, form)` (src/validation/validate.js:126-138):
read the referenced field's current value from the form, throw when it is
missing, and rebind the first rule with it. -/
def getMatchingSchema (schema : Descriptor) (form : List (String × String)) :
    Except String Descriptor :=
  match schema.matchingProperty with
  | none => .ok schema
  | some mp =>
    match objGet form mp with
    | none => .error (Errors.NO_MATCHING_PROPERTY.replace "PROPERTY" mp)
    | some matchingValue =>
      .ok { schema with
        rules := (match schema.rules with
                 | r :: rest => bindMatching r matchingValue :: rest
                 | [] => []) }

/-- The response from validating a form. -/
structure FormResult where
  isValid : Bool
  errors : List (String × List JsVal)
  failedRules : Option (List (String × List String))

/-- The `Object.keys(form).forEach` loop of `validateForm`: `form` is the
whole form (read by `getMatchingSchema`), `fields` the keys still to
process, and the accumulators mirror `formIsValid` / `formErrors` /
`formFailedRules`. -/
def validateFormGo (form : List (String × String)) (formSchema : List (String × SchemaState))
    (opts : Options) :
    List (String × String) → Bool → List (String × List JsVal) →
      List (String × List String) →
      Except String (Bool × List (String × List JsVal) × List (String × List String))
  | [], valid, errs, failed => .ok (valid, errs, failed)
  | (property, value) :: fields, valid, errs, failed =>
    match objGet formSchema property with
    | none => .error Errors.FORM_SCHEMA_MISMATCH
    | some s =>
      match Schema.validateSchema s with
      | .error e => .error e
      | .ok (d, _) =>
        match (if d.matchingProperty.isSome then getMatchingSchema d form else .ok d) with
        | .error e => .error e
        | .ok d' =>
          let r := validateProperty value d' opts
          if r.isValid then validateFormGo form formSchema opts fields valid errs failed
          else
            validateFormGo form formSchema opts fields false
              (errs ++ [(property, r.errors)])
              (failed ++ [(property, r.failedRules.getD [])])

/-- `validateForm(form, formSchema, options)` (src/validation/validate.js:75-117). -/
def validateForm (form : List (String × String)) (formSchema : List (String × SchemaState))
    (opts : Options) : Except String FormResult :=
  (validateFormGo form formSchema opts form true [] []).map fun t =>
    { isValid := t.1, errors := t.2.1,
      failedRules := if opts.includeRules then some t.2.2 else none }

/-! ### Form hook (src/hooks/useForm.js) -/

/-- `getMatchingProperty(name, schema)` (src/hooks/useForm.js:149-165):
the current field's own `matchingProperty` when declared; otherwise scan
the form schema for the first other field whose `matchingProperty` points
back at this one. -/
def getMatchingProperty (name : String) (formSchema : List (String × SchemaState)) :
    Option String :=
  match objGet formSchema name with
  | none => none
  | some s =>
    match s.matchingProperty with
    | some mp => some mp
    | none =>
      (formSchema.find? fun e =>
        decide (e.1 ≠ name) && decide (e.2.matchingProperty = some name)).map Prod.fst

/-! ### Specification-side helpers used only to state theorems -/

/-- The failure messages the rule loop produces without `abortEarly`: one
entry per rule whose call result is not strictly `true`. -/
def ruleFailures (value : String) (label : Option String) (includeLabel : Bool)
    (rules : List Rule) : List JsVal :=
  rules.filterMap fun r =>
    match Rule.run r value with
    | .isTrue => none
    | res => some (getErrorMessage label (errorValue res) includeLabel)

/-- The `name` properties of the rules failing on a value, in rule order. -/
def failingNames (value : String) (rules : List Rule) : List String :=
  (rules.filter fun r => !(Rule.run r value).isTrueResult).map Rule.name

/-- Key-set insertion used to describe the rules object's key order. -/
def keyInsert (ks : List RuleKey) (k : RuleKey) : List RuleKey :=
  if k ∈ ks then ks else ks ++ [k]

/-- A builder call that configures only length or character-class rules. -/
inductive GenOp where
  | min (length : Int) (customError : Option String)
  | max (length : Int) (customError : Option String)
  | digit (customError : Option String)
  | symbol (customError : Option String)
  | uppercase (customError : Option String)
  | lowercase (customError : Option String)

/-- The rules-object key a generic builder call writes. -/
def GenOp.key : GenOp → RuleKey
  | .min _ _ => .minimum
  | .max _ _ => .maximum
  | .digit _ => .digit
  | .symbol _ => .symbol
  | .uppercase _ => .uppercase
  | .lowercase _ => .lowercase

/-- Perform one generic builder call. -/
def GenOp.apply (s : SchemaState) : GenOp → Except String SchemaState
  | .min n c => Schema.min s n c
  | .max n c => Schema.max s n c
  | .digit c => .ok (Schema.hasDigit s c)
  | .symbol c => .ok (Schema.hasSymbol s c)
  | .uppercase c => .ok (Schema.hasUppercase s c)
  | .lowercase c => .ok (Schema.hasLowercase s c)

/-- Perform a sequence of generic builder calls. -/
def applyGenOps (s : SchemaState) : List GenOp → Except String SchemaState
  | [] => .ok s
  | op :: ops =>
    match GenOp.apply s op with
    | .error e => .error e
    | .ok s' => applyGenOps s' ops


/-! ## Theorems -/

/-! ### Shared lemmas -/

theorem mem_escapeChars_of_mem_meta {c : Char} (h : c ∈ regexMetaChars) :
    c ∈ escapeChars := by
  fin_cases h <;> decide

theorem unescapeL_escapeL (l : List Char) : unescapeL (escapeL l) = some l := by
  induction l with
  | nil => rfl
  | cons c cs ih =>
    by_cases hc : c ∈ escapeChars
    · simp [escapeL, hc, unescapeL, ih]
    · have hbs : ¬ c = '\\' := by
        intro h
        exact hc (h ▸ (by decide))
      have hmeta : ¬ c ∈ regexMetaChars := fun h => hc (mem_escapeChars_of_mem_meta h)
      simp only [escapeL, hc, if_false, ite_false]
      rw [unescapeL.eq_def]
      simp [hbs, hmeta, ih]

theorem matchingTest_eq (mv v : String) : matchingTest mv v = decide (v = mv) := by
  unfold matchingTest
  rw [unescapeL_escapeL]
  by_cases h : v = mv
  · subst h; simp
  · have hd : ¬ v.data = mv.data := fun hdata => h (String.ext hdata)
    simp [h, hd]

theorem run_matchStage2 (mv msg v : String) :
    Rule.run (Rule.matchStage2 mv msg) v =
      (if v = mv then .isTrue else .message msg) := by
  simp [Rule.run, matchingTest_eq]

theorem testRules_no_abort (value : String) (lab : Option String) (opts : Options)
    (habort : opts.abortEarly = false) :
    ∀ (rules : List Rule) (errs : List JsVal) (frs : List String),
    testRules value lab opts rules errs frs =
      (errs ++ ruleFailures value lab opts.includeLabel rules,
       List.foldl objInsert frs (failingNames value rules)) := by
  intro rules
  induction rules with
  | nil => intro errs frs; simp [testRules, ruleFailures, failingNames]
  | cons r rs ih =>
    intro errs frs
    cases hr : Rule.run r value with
    | isTrue =>
      simp [testRules, hr, ruleFailures, failingNames, RunResult.isTrueResult,
        List.filterMap_cons, List.filter_cons, ih]
    | message m =>
      simp [testRules, hr, habort, ruleFailures, failingNames, RunResult.isTrueResult,
        List.filterMap_cons, List.filter_cons, ih, List.append_assoc]
    | closure r2 =>
      simp [testRules, hr, habort, ruleFailures, failingNames, RunResult.isTrueResult,
        List.filterMap_cons, List.filter_cons, ih, List.append_assoc]

theorem validateProperty_stage1_invalid (d : Descriptor) (m value : String)
    (opts : Options) (hr : d.rules = [Rule.matchStage1 m]) (hv : ¬ value = "") :
    (validateProperty value d opts).isValid = false := by
  unfold validateProperty
  have hv2 : (value == "") = false := by simp [hv]
  rw [hr, hv2]
  cases hreq : d.required with
  | none => cases habort : opts.abortEarly <;> simp [testRules, Rule.run, habort]
  | some msg => cases habort : opts.abortEarly <;> simp [testRules, Rule.run, habort, hv2]

theorem validateProperty_stage2 (d : Descriptor) (mv m value : String) (opts : Options)
    (hr : d.rules = [Rule.matchStage2 mv m]) (hv : ¬ value = "") :
    (validateProperty value d opts).isValid = decide (value = mv) := by
  unfold validateProperty
  have hv2 : (value == "") = false := by simp [hv]
  rw [hr, hv2]
  by_cases heq : value = mv
  · cases hreq : d.required with
    | none => simp [testRules, run_matchStage2, heq, hv2]
    | some msg => simp [testRules, run_matchStage2, heq, hv2]
  · cases hreq : d.required with
    | none => cases habort : opts.abortEarly <;>
        simp [testRules, run_matchStage2, heq, hv2, habort]
    | some msg => cases habort : opts.abortEarly <;>
        simp [testRules, run_matchStage2, heq, hv2, habort]

theorem validateFormGo_nil (form : List (String × String))
    (fs : List (String × SchemaState)) (opts : Options) (valid : Bool)
    (errs : List (String × List JsVal)) (failed : List (String × List String)) :
    validateFormGo form fs opts [] valid errs failed = .ok (valid, errs, failed) := rfl

theorem validateFormGo_cons (form fields : List (String × String))
    (fs : List (String × SchemaState)) (opts : Options)
    (prop value : String) (sc : SchemaState) (d d2 : Descriptor) (s2 : SchemaState)
    (valid : Bool) (errs : List (String × List JsVal))
    (failed : List (String × List String))
    (hsch : objGet fs prop = some sc)
    (hfin : Schema.validateSchema sc = .ok (d, s2))
    (hres : (if d.matchingProperty.isSome then getMatchingSchema d form else .ok d) =
      .ok d2) :
    validateFormGo form fs opts ((prop, value) :: fields) valid errs failed =
      (if (validateProperty value d2 opts).isValid = true then
        validateFormGo form fs opts fields valid errs failed
       else
        validateFormGo form fs opts fields false
          (errs ++ [(prop, (validateProperty value d2 opts).errors)])
          (failed ++ [(prop, (validateProperty value d2 opts).failedRules.getD [])])) := by
  conv_lhs => rw [validateFormGo.eq_def]
  simp only [hsch, hfin, hres]

/-! ### C1 -/

/-- Claim C1 counterexample: a finalized required schema with a configured
minimum-length rule, validated on the empty string, yields TWO errors (the
required message and the minimum-length message), not exactly one, because
`validateProperty` still calls `testRules` on the empty value. -/
theorem C1_counterexample :
    ((Schema.min newSchema 4 (some "must be at least 4 character(s) long")).bind fun s =>
      (Schema.validateSchema (Schema.isRequired s none)).map fun p =>
        validateProperty "" p.1 DEFAULT_OPTIONS) =
      .ok { isValid := false,
            errors := [.str "must not be empty",
                       .str "must be at least 4 character(s) long"],
            failedRules := none } := rfl

/-- Claim C1 (amended): for every finalized schema marked required and every
collect-all option set, validating the empty string is invalid and the error
list starts with the required message, but the configured rules are still
evaluated on the empty value, each failing rule appending its message, and
(with `includeRules`) their names join `required` in `failedRules`. -/
theorem C1_required_empty_still_runs_rules (schema : Descriptor) (msg : String)
    (opts : Options) (hreq : schema.required = some msg)
    (habort : opts.abortEarly = false) :
    validateProperty "" schema opts =
      { isValid := false,
        errors := .str msg :: ruleFailures "" schema.label opts.includeLabel schema.rules,
        failedRules := if opts.includeRules then
            some (List.foldl objInsert ["required"] (failingNames "" schema.rules))
          else none } := by
  unfold validateProperty
  rw [hreq]
  simp [testRules_no_abort "" schema.label opts habort]

/-- Witness for C1 (amended) at a concrete required schema with a
minimum-length rule. -/
theorem C1_required_empty_still_runs_rules_witness :
    validateProperty ""
        { required := some "must not be empty",
          rules := [Validators.minLength 4 "must be at least 4 character(s) long"] }
        DEFAULT_OPTIONS =
      { isValid := false,
        errors := .str "must not be empty" ::
          ruleFailures "" none false [Validators.minLength 4 "must be at least 4 character(s) long"],
        failedRules := none } :=
  C1_required_empty_still_runs_rules _ _ _ rfl rfl

/-! ### C3 -/

/-- Claim C3 counterexample: a builder on which `min(3)` and `max(2)` and
`matches("x")` have been called finalizes successfully (returning the
matching-rule descriptor) instead of throwing the min-greater-than-max
error. -/
theorem C3_counterexample :
    ((Schema.min newSchema 3 (some "a")).bind fun s =>
      (Schema.max s 2 (some "b")).bind fun s =>
        (Schema.matchesProperty s "x" (some "does not match x")).bind fun s =>
          (Schema.validateSchema s).map fun p => p.1.rules.map Rule.errMsg) =
      .ok ["does not match x"] := rfl

/-- Claim C3 (amended): finalization throws the min-greater-than-max error
for every builder state with `minimum = 3` and `maximum = 2`, provided none
of the exclusive rules (matching property, pattern, email) is configured;
an exclusive rule short-circuits finalization before the length check. -/
theorem C3_min_over_max_generic_only (s : SchemaState)
    (hm : s.matchingProperty = none)
    (hp : rulesGet s.rules .pattern = none)
    (he : rulesGet s.rules .email = none)
    (hmin : s.minimum = some 3) (hmax : s.maximum = some 2) :
    Schema.validateSchema s = .error Errors.INVALID_MIN_OVER_MAX := by
  unfold Schema.validateSchema
  rw [hm, hp, he, hmin, hmax]
  simp [jsGT]

/-- Witness for C3 (amended): a state carrying `min(3)`, `max(2)` and a
digit rule. -/
theorem C3_min_over_max_generic_only_witness :
    Schema.validateSchema
        { minimum := some 3, maximum := some 2,
          rules := [(.minimum, Validators.minLength 3 "a"),
                    (.maximum, Validators.maxLength 2 "b"),
                    (.digit, Validators.digit "c")] } =
      .error Errors.INVALID_MIN_OVER_MAX :=
  C3_min_over_max_generic_only _ rfl rfl rfl rfl rfl

/-! ### C4 -/

/-- Claim C4 counterexample: calling `hasDigit()` then `min(1)` produces a
descriptor whose rules are `[digit, minLength]` — the builder-call order —
which differs from the canonical `[minLength, digit]` order the claim
states. -/
theorem C4_counterexample :
    ((Schema.min (Schema.hasDigit newSchema none) 1 (some "minmsg")).bind fun s =>
        (Schema.validateSchema s).map fun p => p.1.rules.map Rule.errMsg) =
      .ok [Messages.DIGIT, "minmsg"] ∧
    [Messages.DIGIT, "minmsg"] ≠ ["minmsg", Messages.DIGIT] :=
  ⟨rfl, by decide⟩

/-! ### C5 -/

/-- Claim C5: the matching rule bound at form-validation time to a
comparison value is literal character-for-character equality: every regex
metacharacter of the bound value is escaped, so the anchored test accepts
exactly the bound value itself. -/
theorem C5_bound_matching_is_literal_equality (matchingValue msg value : String) :
    Rule.run (bindMatching (Rule.matchStage1 msg) matchingValue) value =
      (if value = matchingValue then .isTrue else .message msg) := by
  simp [bindMatching, run_matchStage2]

/-! ### C6 -/

/-- Claim C6 counterexample: with `includeRules` set, a failing symbol rule
is recorded in `failedRules` under the empty string — the anonymous rule
closure has no `name` — not under `"symbol"`. -/
theorem C6_counterexample :
    ((Schema.validateSchema (Schema.hasSymbol newSchema none)).map fun p =>
        validateProperty "abc" p.1 { includeRules := true }) =
      .ok { isValid := false, errors := [.str Messages.SYMBOL],
            failedRules := some [""] } ∧
    ¬ "symbol" ∈ ([""] : List String) :=
  ⟨rfl, by decide⟩

/-- Claim C6 (amended): with `includeRules` set (collect-all mode, non-empty
value), `failedRules` records, for each rule whose result is not strictly
`true`, the rule closure's JS `name`: `digit`, `lowercase`, `pattern` (and
the modelled `uppercase`) are named, while the anonymously defined symbol,
email, length and matching closures are all recorded under `""`. -/
theorem C6_failed_rules_keyed_by_closure_name (value : String) (schema : Descriptor)
    (opts : Options) (hinc : opts.includeRules = true)
    (habort : opts.abortEarly = false) (hv : ¬ value = "") :
    (validateProperty value schema opts).failedRules =
      some (List.foldl objInsert [] (failingNames value schema.rules)) := by
  unfold validateProperty
  have hv' : (value == "") = false := by simp [hv]
  rw [hv']
  cases hreq : schema.required with
  | none => simp [testRules_no_abort value schema.label opts habort, hinc]
  | some m => simp [testRules_no_abort value schema.label opts habort, hinc, hv']

/-- Witness for C6 (amended): a symbol-only schema on a symbol-free value
records the failure under the anonymous closure's empty name. -/
theorem C6_failed_rules_keyed_by_closure_name_witness :
    (validateProperty "abc" { rules := [Validators.symbol Messages.SYMBOL] }
        { includeRules := true }).failedRules =
      some (List.foldl objInsert [] (failingNames "abc" [Validators.symbol Messages.SYMBOL])) :=
  C6_failed_rules_keyed_by_closure_name _ _ _ rfl rfl (by decide)

/-! ### C7 -/

/-- Claim C7 counterexample: `"\n"` has JS length 1, yet the `minLength 1`
predicate rejects it (and `maxLength 5` rejects it despite length 1 ≤ 5):
the `^.{n,}$` / `^.{0,n}$` patterns require every character to be matched
by `.`, which excludes line terminators, so the bounds are not met
"regardless of which characters the string contains". -/
theorem C7_counterexample :
    jsLength "\n" = 1 ∧
    Rule.run (Validators.minLength 1 "m") "\n" = .message "m" ∧
    jsLength "\n" ≤ 5 ∧
    Rule.run (Validators.maxLength 5 "M") "\n" = .message "M" :=
  ⟨rfl, rfl, by decide, rfl⟩

/-- Claim C7 (amended): for strings containing no JS line terminator, the
`minLength n` predicate accepts exactly the strings of UTF-16 length at
least `n` and `maxLength n` exactly those of length at most `n` (bounds
inclusive); strings containing a line terminator are always rejected by
both. -/
theorem C7_length_bounds_inclusive (n : Nat) (msg msg2 : String) (v : String)
    (hdot : v.data.all regexDot = true) :
    (Rule.run (Validators.minLength n msg) v = .isTrue ↔ n ≤ jsLength v) ∧
    (Rule.run (Validators.maxLength n msg2) v = .isTrue ↔ jsLength v ≤ n) := by
  constructor
  · by_cases h : n ≤ jsLength v
    · simp [Validators.minLength, Rule.run, minLengthTest, hdot, h]
    · simp [Validators.minLength, Rule.run, minLengthTest, hdot, h]
  · by_cases h : jsLength v ≤ n
    · simp [Validators.maxLength, Rule.run, maxLengthTest, hdot, h]
    · simp [Validators.maxLength, Rule.run, maxLengthTest, hdot, h]

/-- Witness for C7 (amended) on a terminator-free string. -/
theorem C7_length_bounds_inclusive_witness :
    (Rule.run (Validators.minLength 2 "m") "abc" = .isTrue ↔ 2 ≤ jsLength "abc") ∧
    (Rule.run (Validators.maxLength 2 "M") "abc" = .isTrue ↔ jsLength "abc" ≤ 2) :=
  C7_length_bounds_inclusive 2 "m" "M" "abc" (by decide)

/-! ### C9 -/

/-- Claim C9: finalization is idempotent.  A successful `validateSchema`
call returns the same descriptor and the same instance state when repeated
on the resulting state (the exclusive branches do not touch the state, and
the generic branch's deletion of `minimum`/`maximum` happens only after
every check has passed, so the re-run takes the same branch to the same
descriptor); a throwing call leaves the state untouched by construction, so
repeating it rethrows the same error. -/
theorem C9_finalize_idempotent (s : SchemaState) (d : Descriptor) (s2 : SchemaState)
    (h : Schema.validateSchema s = .ok (d, s2)) :
    Schema.validateSchema s2 = .ok (d, s2) := by
  unfold Schema.validateSchema at h ⊢
  by_cases h1 : s.matchingProperty.isSome
  · rw [if_pos h1] at h
    obtain ⟨hd, hs⟩ := by simpa using h
    subst hs
    rw [if_pos h1, hd]
  · rw [if_neg h1] at h
    by_cases h2 : (rulesGet s.rules .pattern).isSome
    · rw [if_pos h2] at h
      obtain ⟨hd, hs⟩ := by simpa using h
      subst hs
      rw [if_neg h1, if_pos h2, hd]
    · rw [if_neg h2] at h
      by_cases h3 : (rulesGet s.rules .email).isSome
      · rw [if_pos h3] at h
        obtain ⟨hd, hs⟩ := by simpa using h
        subst hs
        rw [if_neg h1, if_neg h2, if_pos h3, hd]
      · rw [if_neg h3] at h
        by_cases h4 : jsGT s.minimum s.maximum = true
        · rw [if_pos h4] at h; exact absurd h (by simp)
        · rw [if_neg h4] at h
          by_cases h5 : (jsLtNat s.minimum (getMinimumRequiredCharacters s.rules) ||
              jsLtNat s.maximum (getMinimumRequiredCharacters s.rules)) = true
          · rw [if_pos h5] at h; exact absurd h (by simp)
          · rw [if_neg h5] at h
            obtain ⟨hd, hs⟩ := by simpa using h
            subst hs
            simp only []
            rw [if_neg (by simpa using h1), if_neg (by simpa using h2),
              if_neg (by simpa using h3)]
            rw [if_neg (by simp [jsGT]), if_neg (by simp [jsLtNat])]
            subst hd
            rfl

/-- Witness for C9 at the fresh builder state. -/
theorem C9_finalize_idempotent_witness :
    Schema.validateSchema newSchema =
      .ok ({ label := none, required := none, matchingProperty := none, rules := [] },
           newSchema) :=
  C9_finalize_idempotent newSchema _ _ rfl

/-! ### C10 -/

/-- Claim C10: single-property validation of any non-empty value against a
schema configured with `matches` is always invalid: the stored rule is the
curried first stage, whose application to the value returns the second
stage closure — never strictly `true` — so an error is always recorded. -/
theorem C10_single_value_matching_never_valid (s : SchemaState) (p m value : String)
    (opts : Options)
    (hmp : s.matchingProperty = some p)
    (hrule : rulesGet s.rules .matchingProperty = some (Rule.matchStage1 m))
    (hv : ¬ value = "") :
    (validateValue value s opts).map PropertyResult.isValid = .ok false := by
  have hdesc : Schema.validateSchema s =
      .ok ({ label := s.label, required := s.required, matchingProperty := some p,
             rules := [Rule.matchStage1 m] }, s) := by
    unfold Schema.validateSchema
    rw [hmp, hrule]
    simp
  unfold validateValue
  rw [hdesc]
  simp [Except.map]
  exact validateProperty_stage1_invalid _ m value opts rfl hv

/-- Witness for C10 at a concrete matching schema and value. -/
theorem C10_single_value_matching_never_valid_witness :
    (validateValue "hello"
        { matchingProperty := some "pw",
          rules := [(.matchingProperty, Rule.matchStage1 "mm")] }
        DEFAULT_OPTIONS).map PropertyResult.isValid = .ok false :=
  C10_single_value_matching_never_valid _ "pw" "mm" "hello" DEFAULT_OPTIONS rfl rfl
    (by decide)



/-! ### C2 -/

/-- Claim C2: when field `b`'s schema declares `matchingProperty = a` and
`a`'s does not, the system associates the two: the hook's scan over the
form schema (`getMatchingProperty`) finds the back-reference `b` when `a`
is edited, and whole-form validation of the pair binds `b`'s matching rule
to `a`'s current value, so the result carries an error entry for `b`
exactly when the two values differ — re-evaluating either side checks the
cross-field equality. -/
theorem C2_backreference_pair_checked (a b va vb mB : String)
    (sA sB : SchemaState) (dA : Descriptor) (sA2 : SchemaState)
    (fs : List (String × SchemaState)) (opts : Options)
    (hA : objGet fs a = some sA)
    (hAmp : sA.matchingProperty = none)
    (hscan : fs.find? (fun e => decide (e.1 ≠ a) && decide (e.2.matchingProperty = some a)) =
      some (b, sB))
    (hB : objGet fs b = some sB)
    (hBmp : sB.matchingProperty = some a)
    (hBrule : rulesGet sB.rules .matchingProperty = some (Rule.matchStage1 mB))
    (hAfin : Schema.validateSchema sA = .ok (dA, sA2))
    (hdAmp : dA.matchingProperty = none)
    (hab : ¬ a = b)
    (hvb : ¬ vb = "") :
    getMatchingProperty a fs = some b ∧
    ∃ res, validateForm [(a, va), (b, vb)] fs opts = .ok res ∧
      (objGet res.errors b = none ↔ vb = va) ∧
      (res.isValid = true → vb = va) := by
  constructor
  · simp only [getMatchingProperty, hA, hAmp]
    rw [hscan]
    rfl
  · have hBfin : Schema.validateSchema sB =
        .ok ({ label := sB.label, required := sB.required, matchingProperty := some a,
               rules := [Rule.matchStage1 mB] }, sB) := by
      unfold Schema.validateSchema
      rw [hBmp, hBrule]
      simp
    have hresA : (if dA.matchingProperty.isSome then
        getMatchingSchema dA [(a, va), (b, vb)] else .ok dA) = .ok dA := by
      simp [hdAmp]
    have hresB : (if (Option.some a).isSome then
        getMatchingSchema
          { label := sB.label, required := sB.required, matchingProperty := some a,
            rules := [Rule.matchStage1 mB] } [(a, va), (b, vb)]
        else .ok { label := sB.label, required := sB.required, matchingProperty := some a,
                   rules := [Rule.matchStage1 mB] }) =
        .ok { label := sB.label, required := sB.required, matchingProperty := some a,
              rules := [Rule.matchStage2 va mB] } := by
      simp [getMatchingSchema, objGet, bindMatching]
    have hBvalid : (validateProperty vb
        { label := sB.label, required := sB.required, matchingProperty := some a,
          rules := [Rule.matchStage2 va mB] } opts).isValid = decide (vb = va) :=
      validateProperty_stage2 _ va mB vb opts rfl hvb
    unfold validateForm
    rw [validateFormGo_cons _ _ fs opts a va sA dA dA sA2 true [] [] hA hAfin hresA]
    by_cases hAv : (validateProperty va dA opts).isValid = true
    · rw [if_pos hAv]
      rw [validateFormGo_cons _ _ fs opts b vb sB _ _ sB true [] [] hB hBfin hresB]
      by_cases heq : vb = va
      · rw [if_pos (by rw [hBvalid]; simp [heq])]
        rw [validateFormGo_nil]
        refine ⟨_, rfl, ?_, ?_⟩
        · simp [objGet, heq]
        · intro _; exact heq
      · rw [if_neg (by rw [hBvalid]; simp [heq])]
        rw [validateFormGo_nil]
        refine ⟨_, rfl, ?_, ?_⟩
        · simp [objGet, heq]
        · intro h; simp at h
    · rw [if_neg hAv]
      rw [validateFormGo_cons _ _ fs opts b vb sB _ _ sB false _ _ hB hBfin hresB]
      by_cases heq : vb = va
      · rw [if_pos (by rw [hBvalid]; simp [heq])]
        rw [validateFormGo_nil]
        refine ⟨_, rfl, ?_, ?_⟩
        · simp [objGet, hab, heq]
        · intro h; simp at h
      · rw [if_neg (by rw [hBvalid]; simp [heq])]
        rw [validateFormGo_nil]
        refine ⟨_, rfl, ?_, ?_⟩
        · simp [objGet, hab, heq]
        · intro h; simp at h

/-- Witness for C2 on a concrete password / confirmPassword pair. -/
theorem C2_backreference_pair_checked_witness :
    getMatchingProperty "password"
        [("password", newSchema),
         ("confirmPassword",
          { matchingProperty := some "password",
            rules := [(.matchingProperty, Rule.matchStage1 "nomatch")] })] =
      some "confirmPassword" ∧
    ∃ res, validateForm [("password", "abc"), ("confirmPassword", "abd")]
        [("password", newSchema),
         ("confirmPassword",
          { matchingProperty := some "password",
            rules := [(.matchingProperty, Rule.matchStage1 "nomatch")] })]
        DEFAULT_OPTIONS = .ok res ∧
      (objGet res.errors "confirmPassword" = none ↔ "abd" = "abc") ∧
      (res.isValid = true → "abd" = "abc") :=
  C2_backreference_pair_checked "password" "confirmPassword" "abc" "abd" "nomatch"
    newSchema _ { label := none, required := none, matchingProperty := none, rules := [] }
    newSchema _ DEFAULT_OPTIONS rfl rfl rfl rfl rfl rfl rfl rfl (by decide)
    (by decide)



/-! ### C8 -/

theorem objGet_mem {α : Type} (l : List (String × α)) (k : String) (a : α)
    (h : objGet l k = some a) : (k, a) ∈ l := by
  induction l with
  | nil => simp [objGet] at h
  | cons hd tl ih =>
    obtain ⟨k2, a2⟩ := hd
    unfold objGet at h
    by_cases hk : k2 = k
    · rw [if_pos hk] at h
      obtain rfl : a2 = a := by simpa using h
      subst hk
      exact List.mem_cons_self _ _
    · rw [if_neg hk] at h
      exact List.mem_cons_of_mem _ (ih h)

theorem validateFormGo_mismatch (form : List (String × String))
    (fs : List (String × SchemaState)) (opts : Options)
    (hok : ∀ e ∈ fs, ∃ d s2, Schema.validateSchema e.2 = .ok (d, s2) ∧
      ∀ mp, d.matchingProperty = some mp → (objGet form mp).isSome = true) :
    ∀ (fields : List (String × String)) (valid : Bool)
      (errs : List (String × List JsVal)) (failed : List (String × List String)),
      (∃ e ∈ fields, objGet fs e.1 = none) →
      validateFormGo form fs opts fields valid errs failed =
        .error Errors.FORM_SCHEMA_MISMATCH := by
  intro fields
  induction fields with
  | nil =>
    intro valid errs failed h
    obtain ⟨e, he, _⟩ := h
    exact absurd he (List.not_mem_nil e)
  | cons fv fields ih =>
    intro valid errs failed h
    obtain ⟨prop, value⟩ := fv
    cases hsch : objGet fs prop with
    | none =>
      conv_lhs => rw [validateFormGo.eq_def]
      simp only [hsch]
    | some sc =>
      obtain ⟨e, he, hnone⟩ := h
      have hetail : e ∈ fields := by
        rcases List.mem_cons.mp he with rfl | h2
        · rw [hsch] at hnone; exact absurd hnone (by simp)
        · exact h2
      obtain ⟨d, s2, hfin, hmpok⟩ := hok (prop, sc) (objGet_mem fs prop sc hsch)
      have hres : ∃ d2, (if d.matchingProperty.isSome then getMatchingSchema d form
          else .ok d) = .ok d2 := by
        cases hdm : d.matchingProperty with
        | none => exact ⟨d, by simp⟩
        | some mp =>
          obtain ⟨mv, hmv⟩ := Option.isSome_iff_exists.mp (hmpok mp hdm)
          exact ⟨{ d with rules := (match d.rules with
                    | r :: rest => bindMatching r mv :: rest
                    | [] => []) },
            by simp [getMatchingSchema, hdm, hmv]⟩
      obtain ⟨d2, hres⟩ := hres
      rw [validateFormGo_cons form fields fs opts prop value sc d d2 s2 valid errs failed
        hsch hfin hres]
      split
      · exact ih _ _ _ ⟨e, hetail, hnone⟩
      · exact ih _ _ _ ⟨e, hetail, hnone⟩

/-- Claim C8: validating a form containing a key with no corresponding
entry in the form schema throws the schema/form-mismatch configuration
error — an exception instead of a returned result — provided the schemas
that are present are themselves well configured (they finalize without
throwing, and any declared matching property resolves to a form value), so
that no other configuration error fires first. -/
theorem C8_unknown_form_key_throws (form : List (String × String))
    (fs : List (String × SchemaState)) (opts : Options)
    (hmiss : ∃ e ∈ form, objGet fs e.1 = none)
    (hok : ∀ e ∈ fs, ∃ d s2, Schema.validateSchema e.2 = .ok (d, s2) ∧
      ∀ mp, d.matchingProperty = some mp → (objGet form mp).isSome = true) :
    validateForm form fs opts = .error Errors.FORM_SCHEMA_MISMATCH := by
  unfold validateForm
  rw [validateFormGo_mismatch form fs opts hok form true [] [] hmiss]
  rfl

/-- Witness for C8: a one-field form against an empty form schema. -/
theorem C8_unknown_form_key_throws_witness :
    validateForm [("a", "x")] [] DEFAULT_OPTIONS =
      .error Errors.FORM_SCHEMA_MISMATCH :=
  C8_unknown_form_key_throws _ _ _ ⟨("a", "x"), by simp, rfl⟩
    (by intro e he; exact absurd he (List.not_mem_nil e))



/-! ### C4 (amended) -/

theorem keyInsert_cons (k2 k : RuleKey) (ks : List RuleKey) (h : ¬ k = k2) :
    keyInsert (k2 :: ks) k = k2 :: keyInsert ks k := by
  by_cases hmem : k ∈ ks
  · simp [keyInsert, hmem, List.mem_cons, h]
  · simp [keyInsert, hmem, List.mem_cons, h]

theorem rulesSet_keys (m : List (RuleKey × Rule)) (k : RuleKey) (r : Rule) :
    (rulesSet m k r).map Prod.fst = keyInsert (m.map Prod.fst) k := by
  induction m with
  | nil => simp [rulesSet, keyInsert]
  | cons hd tl ih =>
    obtain ⟨k2, r2⟩ := hd
    by_cases hk : k2 = k
    · subst hk
      simp [rulesSet, keyInsert]
    · have hk2 : ¬ k = k2 := fun h => hk h.symm
      simp only [rulesSet, if_neg hk, List.map_cons, ih]
      rw [keyInsert_cons k2 k (tl.map Prod.fst) hk2]

theorem GenOp_apply_keys (s s2 : SchemaState) (op : GenOp)
    (h : GenOp.apply s op = .ok s2) :
    s2.rules.map Prod.fst = keyInsert (s.rules.map Prod.fst) op.key ∧
    s2.matchingProperty = s.matchingProperty := by
  cases op with
  | min n c =>
    simp only [GenOp.apply] at h
    unfold Schema.min at h
    by_cases hneg : n < 0
    · rw [if_pos hneg] at h; exact absurd h (by simp)
    · rw [if_neg hneg] at h
      obtain rfl : _ = s2 := by simpa using h
      simp [rulesSet_keys, GenOp.key]
  | max n c =>
    simp only [GenOp.apply] at h
    unfold Schema.max at h
    by_cases hneg : n < 0
    · rw [if_pos hneg] at h; exact absurd h (by simp)
    · rw [if_neg hneg] at h
      obtain rfl : _ = s2 := by simpa using h
      simp [rulesSet_keys, GenOp.key]
  | digit c =>
    obtain rfl : _ = s2 := by simpa [GenOp.apply] using h
    simp [Schema.hasDigit, rulesSet_keys, GenOp.key]
  | symbol c =>
    obtain rfl : _ = s2 := by simpa [GenOp.apply] using h
    simp [Schema.hasSymbol, rulesSet_keys, GenOp.key]
  | uppercase c =>
    obtain rfl : _ = s2 := by simpa [GenOp.apply] using h
    simp [Schema.hasUppercase, rulesSet_keys, GenOp.key]
  | lowercase c =>
    obtain rfl : _ = s2 := by simpa [GenOp.apply] using h
    simp [Schema.hasLowercase, rulesSet_keys, GenOp.key]

theorem applyGenOps_keys (ops : List GenOp) : ∀ (s s2 : SchemaState),
    applyGenOps s ops = .ok s2 →
    s2.rules.map Prod.fst =
      List.foldl keyInsert (s.rules.map Prod.fst) (ops.map GenOp.key) ∧
    s2.matchingProperty = s.matchingProperty := by
  induction ops with
  | nil =>
    intro s s2 h
    obtain rfl : s = s2 := by simpa [applyGenOps] using h
    simp
  | cons op ops ih =>
    intro s s2 h
    unfold applyGenOps at h
    cases hop : GenOp.apply s op with
    | error e => rw [hop] at h; exact absurd h (by simp)
    | ok s1 =>
      rw [hop] at h
      obtain ⟨hk, hm⟩ := GenOp_apply_keys s s1 op hop
      obtain ⟨hk2, hm2⟩ := ih s1 s2 h
      refine ⟨?_, hm2.trans hm⟩
      rw [hk2, hk]
      simp

theorem mem_foldl_keyInsert (l : List RuleKey) : ∀ (ks : List RuleKey) (k : RuleKey),
    k ∈ List.foldl keyInsert ks l → k ∈ ks ∨ k ∈ l := by
  induction l with
  | nil =>
    intro ks k h
    exact Or.inl h
  | cons a l ih =>
    intro ks k h
    rcases ih (keyInsert ks a) k h with h2 | h2
    · unfold keyInsert at h2
      by_cases hmem : a ∈ ks
      · rw [if_pos hmem] at h2
        exact Or.inl h2
      · rw [if_neg hmem] at h2
        rcases List.mem_append.mp h2 with h3 | h3
        · exact Or.inl h3
        · obtain rfl : k = a := by simpa using h3
          exact Or.inr (List.mem_cons_self _ _)
    · exact Or.inr (List.mem_cons_of_mem _ h2)

theorem rulesGet_eq_none (m : List (RuleKey × Rule)) (k : RuleKey)
    (h : ¬ k ∈ m.map Prod.fst) : rulesGet m k = none := by
  induction m with
  | nil => rfl
  | cons hd tl ih =>
    obtain ⟨k2, r2⟩ := hd
    simp only [List.map_cons, List.mem_cons, not_or] at h
    unfold rulesGet
    rw [if_neg (fun h2 => h.1 (h2.symm))]
    exact ih h.2

/-- Claim C4 (amended): for a builder configured through any sequence of
length and character-class calls (no matches, pattern, or email), the
finalized descriptor lists its rules in the order of the rules object's
keys, which is the order in which each rule kind was FIRST configured
(JS object key insertion order; re-calls overwrite in place) — not the
canonical `[minLength, maxLength, digit, symbol, uppercase, lowercase]`
order. -/
theorem C4_rule_order_is_first_call_order (ops : List GenOp) (s2 s3 : SchemaState)
    (d : Descriptor)
    (hops : applyGenOps newSchema ops = .ok s2)
    (hfin : Schema.validateSchema s2 = .ok (d, s3)) :
    d.rules = s2.rules.map Prod.snd ∧
    s2.rules.map Prod.fst = List.foldl keyInsert [] (ops.map GenOp.key) := by
  obtain ⟨hkeys, hmp⟩ := applyGenOps_keys ops newSchema s2 hops
  have hkeys2 : s2.rules.map Prod.fst = List.foldl keyInsert [] (ops.map GenOp.key) := by
    simpa [newSchema] using hkeys
  have hmp2 : s2.matchingProperty = none := by simpa [newSchema] using hmp
  have hnotin : ∀ k : RuleKey, (∀ op : GenOp, ¬ GenOp.key op = k) →
      rulesGet s2.rules k = none := by
    intro k hgen
    apply rulesGet_eq_none
    intro hmem
    rw [hkeys2] at hmem
    rcases mem_foldl_keyInsert _ _ _ hmem with h | h
    · exact absurd h (List.not_mem_nil _)
    · obtain ⟨op, _, hkey⟩ := List.mem_map.mp h
      exact hgen op hkey
  have hpat : rulesGet s2.rules .pattern = none :=
    hnotin .pattern (by intro op; cases op <;> simp [GenOp.key])
  have hem : rulesGet s2.rules .email = none :=
    hnotin .email (by intro op; cases op <;> simp [GenOp.key])
  refine ⟨?_, hkeys2⟩
  unfold Schema.validateSchema at hfin
  rw [hmp2, hpat, hem] at hfin
  simp only [Option.isSome_none, Bool.false_eq_true, if_false] at hfin
  by_cases h4 : jsGT s2.minimum s2.maximum = true
  · rw [if_pos h4] at hfin; exact absurd hfin (by simp)
  · rw [if_neg h4] at hfin
    by_cases h5 : (jsLtNat s2.minimum (getMinimumRequiredCharacters s2.rules) ||
        jsLtNat s2.maximum (getMinimumRequiredCharacters s2.rules)) = true
    · rw [if_pos h5] at hfin; exact absurd hfin (by simp)
    · rw [if_neg h5] at hfin
      obtain ⟨hd, _⟩ := by simpa using hfin
      rw [← hd]

/-- Witness for C4 (amended): `hasDigit()` then `min(1)` puts the digit
rule first. -/
theorem C4_rule_order_is_first_call_order_witness :
    (({ label := none, required := none, matchingProperty := none,
        rules := [Validators.digit "dm", Validators.minLength 1 "mm"] } : Descriptor).rules =
      ([(.digit, Validators.digit "dm"),
        (.minimum, Validators.minLength 1 "mm")] : List (RuleKey × Rule)).map Prod.snd) ∧
    ([(.digit, Validators.digit "dm"),
      (.minimum, Validators.minLength 1 "mm")] : List (RuleKey × Rule)).map Prod.fst =
      List.foldl keyInsert []
        ([GenOp.digit (some "dm"), GenOp.min 1 (some "mm")].map GenOp.key) :=
  C4_rule_order_is_first_call_order [GenOp.digit (some "dm"), GenOp.min 1 (some "mm")]
    { minimum := some 1,
      rules := [(.digit, Validators.digit "dm"), (.minimum, Validators.minLength 1 "mm")] }
    { minimum := none,
      rules := [(.digit, Validators.digit "dm"), (.minimum, Validators.minLength 1 "mm")] }
    { label := none, required := none, matchingProperty := none,
      rules := [Validators.digit "dm", Validators.minLength 1 "mm"] }
    rfl rfl


end JsValidation
